import Mathlib

/-!
# Verification of the FlexType value-wrapping library

Shallow embedding of `dist/flextype.cjs.js` (the `FlexType` class and its
factory functions) and proofs about it.

Modelling conventions:
* JS strings are sequences of UTF-16 code units, modelled as `List Nat`
  (each entry `< 2^16`); this is needed because `charShift` can produce
  lone surrogates, which are legal JS strings.
* JS numbers are modelled as extended rationals (`JNum`): a finite
  rational, signed infinity, or NaN.  This is exact on every input the
  library's claims exercise; double rounding and negative zero are outside
  the model.
* JS objects and arrays are heap references: `JSVal.vRef a` points into an
  explicit `Heap`, so the aliasing behaviour of `get`/`set`/`push` is
  modelled faithfully.
* Host builtins used by the source (`String.prototype.trim`,
  `toLowerCase`, `Number`, `isNaN`, `isFinite`, `JSON.parse`,
  `String.fromCharCode`, `String()` conversion) are modelled below as
  executable Lean functions over code-unit lists.
-/

/-- A JS string: its sequence of UTF-16 code units. -/
abbrev JStr := List Nat

/-- Embed an ASCII/BMP Lean string literal as a JS string. -/
def jstr (s : String) : JStr := s.data.map Char.toNat

/-! Kernel-computable rational arithmetic.  The library `Rat` operations
are `@[irreducible]`, so concrete runs of the model could not be checked
by `decide`; these helpers reduce, and the bridge lemmas right below prove
they agree with the `ℚ` field operations. -/

def qAdd (a b : ℚ) : ℚ := mkRat (a.num * b.den + b.num * a.den) (a.den * b.den)

def qNeg (a : ℚ) : ℚ := mkRat (-a.num) a.den

def qMul (a b : ℚ) : ℚ := mkRat (a.num * b.num) (a.den * b.den)

def qDiv (a b : ℚ) : ℚ := Rat.divInt (a.num * b.den) (b.num * a.den)

def qMin (a b : ℚ) : ℚ := if a ≤ b then a else b

def qMax (a b : ℚ) : ℚ := if a ≤ b then b else a

/-- A JS number: finite (exact rational), ±Infinity, or NaN. -/
inductive JNum where
  | fin (q : ℚ)
  | posInf
  | negInf
  | nan
deriving DecidableEq

namespace JNum

def isNaN : JNum → Bool
  | .nan => true
  | _ => false

def isFinite : JNum → Bool
  | .fin _ => true
  | _ => false

def neg : JNum → JNum
  | .fin q => .fin (qNeg q)
  | .posInf => .negInf
  | .negInf => .posInf
  | .nan => .nan

def add : JNum → JNum → JNum
  | .nan, _ => .nan
  | _, .nan => .nan
  | .posInf, .negInf => .nan
  | .negInf, .posInf => .nan
  | .posInf, _ => .posInf
  | _, .posInf => .posInf
  | .negInf, _ => .negInf
  | _, .negInf => .negInf
  | .fin a, .fin b => .fin (qAdd a b)

def sub (a b : JNum) : JNum := add a (neg b)

def mul : JNum → JNum → JNum
  | .nan, _ => .nan
  | _, .nan => .nan
  | .posInf, .posInf => .posInf
  | .posInf, .negInf => .negInf
  | .negInf, .posInf => .negInf
  | .negInf, .negInf => .posInf
  | .posInf, .fin b => if b = 0 then .nan else if 0 < b then .posInf else .negInf
  | .fin a, .posInf => if a = 0 then .nan else if 0 < a then .posInf else .negInf
  | .negInf, .fin b => if b = 0 then .nan else if 0 < b then .negInf else .posInf
  | .fin a, .negInf => if a = 0 then .nan else if 0 < a then .negInf else .posInf
  | .fin a, .fin b => .fin (qMul a b)

/-- JS `/`.  Division by zero yields an infinity (the model has a single
zero, so `x / 0` takes the sign of `x`), and `0 / 0` yields NaN. -/
def div : JNum → JNum → JNum
  | .nan, _ => .nan
  | _, .nan => .nan
  | .posInf, .posInf => .nan
  | .posInf, .negInf => .nan
  | .negInf, .posInf => .nan
  | .negInf, .negInf => .nan
  | .posInf, .fin b => if 0 ≤ b then .posInf else .negInf
  | .negInf, .fin b => if 0 ≤ b then .negInf else .posInf
  | .fin _, .posInf => .fin 0
  | .fin _, .negInf => .fin 0
  | .fin a, .fin b =>
    if b = 0 then
      if a = 0 then .nan else if 0 < a then .posInf else .negInf
    else .fin (qDiv a b)

/-- JS `Math.min` on two arguments (NaN-propagating). -/
def min2 : JNum → JNum → JNum
  | .nan, _ => .nan
  | _, .nan => .nan
  | .negInf, _ => .negInf
  | _, .negInf => .negInf
  | .posInf, b => b
  | a, .posInf => a
  | .fin a, .fin b => .fin (qMin a b)

/-- JS `Math.max` on two arguments (NaN-propagating). -/
def max2 : JNum → JNum → JNum
  | .nan, _ => .nan
  | _, .nan => .nan
  | .posInf, _ => .posInf
  | _, .posInf => .posInf
  | .negInf, b => b
  | a, .negInf => a
  | .fin a, .fin b => .fin (qMax a b)

end JNum

/-- A JS value.  Arrays and plain objects live in the heap and are
referenced through `vRef`, which models JS reference semantics. -/
inductive JSVal where
  | vNull
  | vUndefined
  | vBool (b : Bool)
  | vNum (n : JNum)
  | vStr (s : JStr)
  | vRef (a : Nat)
deriving DecidableEq

/-- A heap cell: an array of values or a plain object (ordered field list). -/
inductive HObj where
  | hArr (elems : List JSVal)
  | hObj (fields : List (JStr × JSVal))
deriving DecidableEq

/-- The heap: cell `a` is `h[a]`. -/
abbrev Heap := List HObj

/-- Decidable equality for `Except`, used to check concrete runs of the
fallible operations. -/
instance {e a : Type} [DecidableEq e] [DecidableEq a] : DecidableEq (Except e a) := fun x y =>
  match x, y with
  | .error u, .error v =>
    if h : u = v then isTrue (by rw [h]) else isFalse (fun hc => h (Except.error.inj hc))
  | .ok u, .ok v =>
    if h : u = v then isTrue (by rw [h]) else isFalse (fun hc => h (Except.ok.inj hc))
  | .error _, .ok _ => isFalse (fun hc => Except.noConfusion hc)
  | .ok _, .error _ => isFalse (fun hc => Except.noConfusion hc)

/-! ## Host string builtins: trim, toLowerCase -/

/-- The code units stripped by `String.prototype.trim`
(ECMAScript WhiteSpace ∪ LineTerminator). -/
def jsIsWS (c : Nat) : Bool :=
  decide (c = 9 ∨ c = 10 ∨ c = 11 ∨ c = 12 ∨ c = 13 ∨ c = 32 ∨ c = 160 ∨
    c = 0x1680 ∨ (0x2000 ≤ c ∧ c ≤ 0x200A) ∨ c = 0x2028 ∨ c = 0x2029 ∨
    c = 0x202F ∨ c = 0x205F ∨ c = 0x3000 ∨ c = 0xFEFF)

/-- Remove trailing whitespace. -/
def dropTrailingWS : JStr → JStr
  | [] => []
  | c :: rest =>
    let r := dropTrailingWS rest
    if r = [] ∧ jsIsWS c then [] else c :: r

/-- `String.prototype.trim`. -/
def jsTrim (s : JStr) : JStr := dropTrailingWS (s.dropWhile jsIsWS)

/-- Lower-case one code unit.  ASCII-only: the only non-ASCII code unit
whose JS lowercase is a single ASCII letter is U+212A (KELVIN SIGN → `k`),
which cannot influence a comparison against `"true"`/`"false"`. -/
def lowerUnit (c : Nat) : Nat := if 65 ≤ c ∧ c ≤ 90 then c + 32 else c

/-- `String.prototype.toLowerCase` (ASCII model, see `lowerUnit`). -/
def jsToLower (s : JStr) : JStr := s.map lowerUnit

/-! ## Host `Number(string)` conversion -/

def isDigitU (c : Nat) : Bool := decide (48 ≤ c ∧ c ≤ 57)

/-- Split off a maximal run of decimal digits. -/
def spanDigits : JStr → JStr × JStr
  | [] => ([], [])
  | c :: rest =>
    if isDigitU c then
      let (ds, r) := spanDigits rest
      (c :: ds, r)
    else ([], c :: rest)

/-- Value of a run of decimal digits (most significant first). -/
def decValue (ds : JStr) : Nat := ds.foldl (fun a c => a * 10 + (c - 48)) 0

/-- Value of one digit in radix 2/8/16, if valid. -/
def radixDigit (radix c : Nat) : Option Nat :=
  let v :=
    if 48 ≤ c ∧ c ≤ 57 then some (c - 48)
    else if 97 ≤ c ∧ c ≤ 102 then some (c - 87)
    else if 65 ≤ c ∧ c ≤ 70 then some (c - 55)
    else none
  match v with
  | some d => if d < radix then some d else none
  | none => none

def radixValue (radix : Nat) : JStr → Option Nat
  | [] => some 0
  | c :: rest =>
    match radixDigit radix c, radixValue radix rest with
    | some d, some v => some (d * radix ^ rest.length + v)
    | _, _ => none

/-- `0x…`/`0o…`/`0b…` body: at least one digit, all digits valid. -/
def parseRadixBody (radix : Nat) (t : JStr) : JNum :=
  if t = [] then .nan
  else
    match radixValue radix t with
    | some v => .fin (mkRat v 1)
    | none => .nan

/-- Decimal literal body of the JS `Number` grammar:
`digits [. digits] [exp]` or `. digits [exp]`, consumed fully. -/
def parseDecBody (t : JStr) : JNum :=
  match t.head? with
  | none => .nan
  | some c =>
    if ¬(isDigitU c ∨ c = 46) then .nan
    else
      let (ids, r1) := spanDigits t
      let (fds, r2) :=
        match r1 with
        | 46 :: r => spanDigits r
        | _ => ([], r1)
      if ids = [] ∧ fds = [] then .nan
      else
        let mant : Nat := decValue ids * 10 ^ fds.length + decValue fds
        match r2 with
        | [] => .fin (mkRat mant (10 ^ fds.length))
        | 101 :: r3 | 69 :: r3 =>
          let (esign, r4) : Bool × JStr :=
            match r3 with
            | 43 :: r => (false, r)
            | 45 :: r => (true, r)
            | _ => (false, r3)
          let (eds, r5) := spanDigits r4
          if eds = [] ∨ r5 ≠ [] then .nan
          else if esign then .fin (mkRat mant (10 ^ fds.length * 10 ^ decValue eds))
          else .fin (mkRat (mant * 10 ^ decValue eds) (10 ^ fds.length))
        | _ => .nan

/-- Unsigned part of the `Number` grammar: `Infinity` or a decimal literal. -/
def parseUnsignedNum (t : JStr) : JNum :=
  if t = jstr "Infinity" then .posInf else parseDecBody t

/-- `Number` on a trimmed, nonempty string. -/
def numFromTrimmed (t : JStr) : JNum :=
  match t with
  | 48 :: 120 :: r => parseRadixBody 16 r
  | 48 :: 88 :: r => parseRadixBody 16 r
  | 48 :: 111 :: r => parseRadixBody 8 r
  | 48 :: 79 :: r => parseRadixBody 8 r
  | 48 :: 98 :: r => parseRadixBody 2 r
  | 48 :: 66 :: r => parseRadixBody 2 r
  | 43 :: r => parseUnsignedNum r
  | 45 :: r => (parseUnsignedNum r).neg
  | _ => parseUnsignedNum t

/-- Host `Number(string)` (also the string case of `ToNumber`):
trim, empty ↦ `0`, else parse the full numeric grammar, failure ↦ NaN. -/
def jsStringToNum (s : JStr) : JNum :=
  let t := jsTrim s
  if t = [] then .fin 0 else numFromTrimmed t

/-! ## Host `JSON.parse` -/

mutual
/-- A parsed JSON document (pure tree, before heap allocation). -/
inductive JTree where
  | tNull
  | tBool (b : Bool)
  | tNum (q : ℚ)
  | tStr (s : JStr)
  | tArr (items : JItems)
  | tObj (fields : JFields)
inductive JItems where
  | nil
  | cons (head : JTree) (tail : JItems)
inductive JFields where
  | nil
  | cons (key : JStr) (val : JTree) (tail : JFields)
end

def JTree.isArr : JTree → Bool
  | .tArr _ => true
  | _ => false

/-- JSON insignificant whitespace. -/
def jsonSkipWS (s : JStr) : JStr :=
  s.dropWhile (fun c => decide (c = 32 ∨ c = 9 ∨ c = 10 ∨ c = 13))

def jsonEscape (e : Nat) : Option Nat :=
  if e = 34 then some 34
  else if e = 92 then some 92
  else if e = 47 then some 47
  else if e = 98 then some 8
  else if e = 102 then some 12
  else if e = 110 then some 10
  else if e = 114 then some 13
  else if e = 116 then some 9
  else none

def hex4 (a b c d : Nat) : Option Nat :=
  match radixDigit 16 a, radixDigit 16 b, radixDigit 16 c, radixDigit 16 d with
  | some va, some vb, some vc, some vd => some (((va * 16 + vb) * 16 + vc) * 16 + vd)
  | _, _, _, _ => none

/-- Body of a JSON string literal (after the opening quote). -/
def jsonStrBody : JStr → Option (JStr × JStr)
  | [] => none
  | 34 :: rest => some ([], rest)
  | 92 :: 117 :: a :: b :: c :: d :: rest =>
    (match hex4 a b c d, jsonStrBody rest with
     | some u, some (s, r) => some (u :: s, r)
     | _, _ => none)
  | 92 :: e :: rest =>
    (match jsonEscape e, jsonStrBody rest with
     | some u, some (s, r) => some (u :: s, r)
     | _, _ => none)
  | c :: rest =>
    if c < 32 then none
    else
      match jsonStrBody rest with
      | some (s, r) => some (c :: s, r)
      | none => none

/-- A JSON number literal: `-? (0 | [1-9]digits) frac? exp?`. -/
def jsonNumLit (s : JStr) : Option (ℚ × JStr) :=
  let (neg, s1) : Bool × JStr := match s with | 45 :: r => (true, r) | _ => (false, s)
  let (ids, s2) := spanDigits s1
  if ids = [] then none
  else if 1 < ids.length ∧ ids.head? = some 48 then none
  else
    let step2 : Option (JStr × JStr) :=
      match s2 with
      | 46 :: r =>
        let (fds, s3) := spanDigits r
        if fds = [] then none else some (fds, s3)
      | _ => some ([], s2)
    match step2 with
    | none => none
    | some (fds, s3) =>
      let mant : ℤ := (if neg then -1 else 1) *
        ((decValue ids * 10 ^ fds.length + decValue fds : Nat) : ℤ)
      match s3 with
      | 101 :: r | 69 :: r =>
        let (esgn, r1) : Bool × JStr :=
          match r with
          | 43 :: r2 => (false, r2)
          | 45 :: r2 => (true, r2)
          | _ => (false, r)
        let (eds, r3) := spanDigits r1
        if eds = [] then none
        else if esgn then some (mkRat mant (10 ^ fds.length * 10 ^ decValue eds), r3)
        else some (mkRat (mant * 10 ^ decValue eds) (10 ^ fds.length), r3)
      | _ => some (mkRat mant (10 ^ fds.length), s3)

mutual
def parseJVal : Nat → JStr → Option (JTree × JStr)
  | 0, _ => none
  | fuel + 1, s =>
    match jsonSkipWS s with
    | 110 :: 117 :: 108 :: 108 :: r => some (.tNull, r)
    | 116 :: 114 :: 117 :: 101 :: r => some (.tBool true, r)
    | 102 :: 97 :: 108 :: 115 :: 101 :: r => some (.tBool false, r)
    | 34 :: r =>
      (match jsonStrBody r with
       | some (cs, r1) => some (.tStr cs, r1)
       | none => none)
    | 91 :: r =>
      (match jsonSkipWS r with
       | 93 :: r1 => some (.tArr .nil, r1)
       | s1 =>
         match parseJItems fuel s1 with
         | some (es, r1) => some (.tArr es, r1)
         | none => none)
    | 123 :: r =>
      (match jsonSkipWS r with
       | 125 :: r1 => some (.tObj .nil, r1)
       | s1 =>
         match parseJFields fuel s1 with
         | some (fs, r1) => some (.tObj fs, r1)
         | none => none)
    | s1 =>
      (match jsonNumLit s1 with
       | some (q, r1) => some (.tNum q, r1)
       | none => none)

def parseJItems : Nat → JStr → Option (JItems × JStr)
  | 0, _ => none
  | fuel + 1, s =>
    match parseJVal fuel s with
    | none => none
    | some (v, r) =>
      match jsonSkipWS r with
      | 44 :: r1 =>
        (match parseJItems fuel r1 with
         | some (vs, r2) => some (.cons v vs, r2)
         | none => none)
      | 93 :: r1 => some (.cons v .nil, r1)
      | _ => none

def parseJFields : Nat → JStr → Option (JFields × JStr)
  | 0, _ => none
  | fuel + 1, s =>
    match jsonSkipWS s with
    | 34 :: r =>
      (match jsonStrBody r with
       | none => none
       | some (key, r1) =>
         match jsonSkipWS r1 with
         | 58 :: r2 =>
           (match parseJVal fuel r2 with
            | none => none
            | some (v, r3) =>
              match jsonSkipWS r3 with
              | 44 :: r4 =>
                (match parseJFields fuel r4 with
                 | some (fs, r5) => some (.cons key v fs, r5)
                 | none => none)
              | 125 :: r4 => some (.cons key v .nil, r4)
              | _ => none)
         | _ => none)
    | _ => none
end

/-- Host `JSON.parse`: full parse of the whole input, `none` on any syntax
error (the library catches the host exception, so `Option` is faithful). -/
def jsonParse (s : JStr) : Option JTree :=
  match parseJVal (s.length + 1) s with
  | some (t, r) => if jsonSkipWS r = [] then some t else none
  | none => none

mutual
/-- Allocate a parsed JSON tree into the heap (children before parents),
returning the extended heap and the value for the root. -/
def allocTree (h : Heap) : JTree → Heap × JSVal
  | .tNull => (h, .vNull)
  | .tBool b => (h, .vBool b)
  | .tNum q => (h, .vNum (.fin q))
  | .tStr s => (h, .vStr s)
  | .tArr items =>
    let (h1, vs) := allocItems h items
    (h1 ++ [.hArr vs], .vRef h1.length)
  | .tObj fields =>
    let (h1, fs) := allocFields h fields
    (h1 ++ [.hObj fs], .vRef h1.length)

def allocItems (h : Heap) : JItems → Heap × List JSVal
  | .nil => (h, [])
  | .cons t rest =>
    let (h1, v) := allocTree h t
    let (h2, vs) := allocItems h1 rest
    (h2, v :: vs)

def allocFields (h : Heap) : JFields → Heap × List (JStr × JSVal)
  | .nil => (h, [])
  | .cons k t rest =>
    let (h1, v) := allocTree h t
    let (h2, fs) := allocFields h1 rest
    (h2, (k, v) :: fs)
end

/-! ## Host `String()` conversion, truthiness, `ToNumber` -/

/-- Little-endian decimal digits (fueled so the kernel can reduce it). -/
def natDigitsRev (fuel n : Nat) : List Nat :=
  match fuel with
  | 0 => []
  | fuel + 1 => if n = 0 then [] else n % 10 :: natDigitsRev fuel (n / 10)

/-- Big-endian decimal digits of a natural number. -/
def natDigitsJ (n : Nat) : JStr :=
  if n = 0 then [48] else (natDigitsRev (n + 1) n).reverse.map (fun d => d + 48)

/-- Decimal expansion of `rem/den` (`rem < den`), stopping when the
remainder vanishes or the fuel runs out. -/
def fracDigitsJ (fuel rem den : Nat) : JStr :=
  match fuel with
  | 0 => []
  | fuel + 1 =>
    if rem = 0 then [] else (rem * 10 / den + 48) :: fracDigitsJ fuel (rem * 10 % den) den

/-- Host `String(finiteNumber)`, modelled for the plain-decimal range
(JS switches to exponent notation only for `|n| ≥ 1e21` or `0 < |n| < 1e-6`,
which no claim exercises). -/
def ratToJStr (q : ℚ) : JStr :=
  let n := q.num.natAbs
  let d := q.den
  (if q.num < 0 then [45] else []) ++ natDigitsJ (n / d) ++
    (if n % d = 0 then [] else 46 :: fracDigitsJ 1200 (n % d) d)

def jnumToJStr : JNum → JStr
  | .fin q => ratToJStr q
  | .posInf => jstr "Infinity"
  | .negInf => jstr "-Infinity"
  | .nan => jstr "NaN"

mutual
/-- `ToString` of a heap reference: arrays join their elements with commas
(null/undefined elements become empty), plain objects print the generic
object marker. -/
def refToJStr (fuel : Nat) (h : Heap) (a : Nat) : JStr :=
  match fuel with
  | 0 => []
  | fuel + 1 =>
    match h[a]? with
    | some (.hArr vs) => arrJoinJ fuel h vs true
    | _ => jstr "[object Object]"
termination_by (fuel, 0)

def arrJoinJ (fuel : Nat) (h : Heap) (vs : List JSVal) (first : Bool) : JStr :=
  match vs with
  | [] => []
  | v :: rest =>
    let sep : JStr := if first then [] else [44]
    let sv : JStr :=
      match v with
      | .vNull => []
      | .vUndefined => []
      | .vBool b => if b then jstr "true" else jstr "false"
      | .vNum n => jnumToJStr n
      | .vStr s => s
      | .vRef b => refToJStr fuel h b
    sep ++ sv ++ arrJoinJ fuel h rest false
termination_by (fuel, vs.length + 1)
end

/-- Host `String(value)`. -/
def jsToString (h : Heap) : JSVal → JStr
  | .vNull => jstr "null"
  | .vUndefined => jstr "undefined"
  | .vBool b => if b then jstr "true" else jstr "false"
  | .vNum n => jnumToJStr n
  | .vStr s => s
  | .vRef a => refToJStr (h.length + 1) h a

/-- Host `Boolean(value)` / truthiness. -/
def jsTruthy : JSVal → Bool
  | .vNull => false
  | .vUndefined => false
  | .vBool b => b
  | .vNum (.fin q) => decide (q ≠ 0)
  | .vNum .nan => false
  | .vNum _ => true
  | .vStr s => decide (s ≠ [])
  | .vRef _ => true

/-- Host `ToNumber(value)` (objects go through their string form). -/
def jsToNumber (h : Heap) : JSVal → JNum
  | .vNull => .fin 0
  | .vUndefined => .nan
  | .vBool b => .fin (if b then 1 else 0)
  | .vNum n => n
  | .vStr s => jsStringToNum s
  | .vRef a => jsStringToNum (refToJStr (h.length + 1) h a)

/-! ## `_inferType` (source lines 10–25) -/

/-- `_inferType`.  `Date`/`RegExp`/`Map`/`Set` are outside the value model;
the remaining branches are translated in source order. -/
def inferType (h : Heap) : JSVal → String
  | .vNull => "null"
  | .vUndefined => "undefined"
  | .vNum n => if n.isNaN then "nan" else "number"
  | .vRef a =>
    (match h[a]? with
     | some (.hArr _) => "array"
     | _ => "object")
  | .vStr _ => "string"
  | .vBool _ => "boolean"

/-! ## The `FlexType` class (source lines 45–410) -/

/-- Constructor options (defaults from source lines 56–61). -/
structure Options where
  stringLock : Bool := false
  boolLock : Bool := false
  typeLock : Bool := false
deriving DecidableEq

/-- The fields of a `FlexType` instance. -/
structure FlexType where
  initialValue : JSVal
  name : JStr
  options : Options
  typeHistory : List String
  inferredType : String
  convertedValue : JSVal
deriving DecidableEq

/-- `_recordTypeChange` (lines 74–79): push `newType` unless it equals the
last history entry (`history[-1]` of an empty history is `undefined`, which
never equals a type tag, so the first record always pushes); then set the
current type.  Returns (new history, new current type). -/
def recordTypeChange (hist : List String) (newType : String) : List String × String :=
  (if hist.getLast? ≠ some newType then hist ++ [newType] else hist, newType)

/-- The decision taken by `_convertString` (lines 105–148), separated from
its effects so that it can be reasoned about as a pure function of the
input string. -/
inductive StrOutcome where
  | stays
  | toTrue
  | toFalse
  | toNum (n : JNum)
  | toJson (t : JTree)

def StrOutcome.isStays : StrOutcome → Bool
  | .stays => true
  | _ => false

/-- Branches of `_convertString`, in source order: string lock; trim;
empty; `true`/`false` (case-insensitive); full finite-number parse
(`!isNaN(trimmed)` with the redundant `trimmed !== ''` guard, then
`isFinite(num)`; a non-finite parse falls through to the JSON check);
brace/bracket-delimited JSON parse with silent fallback; default. -/
def stringOutcome (opts : Options) (s : JStr) : StrOutcome :=
  if opts.stringLock then .stays
  else
    let trimmed := jsTrim s
    if trimmed = [] then .stays
    else
      let lowerTrimmed := jsToLower trimmed
      if lowerTrimmed = jstr "true" then .toTrue
      else if lowerTrimmed = jstr "false" then .toFalse
      else if ¬(jsStringToNum trimmed).isNaN ∧ (jsStringToNum trimmed).isFinite then
        .toNum (jsStringToNum trimmed)
      else if (trimmed.head? = some 123 ∧ trimmed.getLast? = some 125) ∨
              (trimmed.head? = some 91 ∧ trimmed.getLast? = some 93) then
        match jsonParse trimmed with
        | some t => .toJson t
        | none => .stays
      else .stays

/-- `_convertString` (lines 105–148): carry out the decided branch,
recording the type change exactly where the source calls
`_recordTypeChange`.  In every `stays` case the source returns the
original (untrimmed) string `str`.  State threaded: heap, converted
value, type history, current inferred type. -/
def convertString (h : Heap) (opts : Options) (hist : List String) (ty : String) (s : JStr) :
    Heap × JSVal × List String × String :=
  match stringOutcome opts s with
  | .stays => (h, .vStr s, hist, ty)
  | .toTrue =>
    let (hist1, ty1) := recordTypeChange hist "boolean"
    (h, .vBool true, hist1, ty1)
  | .toFalse =>
    let (hist1, ty1) := recordTypeChange hist "boolean"
    (h, .vBool false, hist1, ty1)
  | .toNum n =>
    let (hist1, ty1) := recordTypeChange hist "number"
    (h, .vNum n, hist1, ty1)
  | .toJson t =>
    let (h1, v) := allocTree h t
    let (hist1, ty1) := recordTypeChange hist (if t.isArr then "array" else "object")
    (h1, v, hist1, ty1)

/-- `_convertBoolean` (lines 155–162). -/
def convertBoolean (opts : Options) (b : Bool) : JSVal :=
  if opts.boolLock then .vNum (.fin (if b then 1 else 0)) else .vBool b

/-- `_autoConvert` (lines 87–98): no-op under `typeLock`, else dispatch on
the current inferred tag (a `"string"`/`"boolean"` tag always comes with a
value of that shape, so matching both is the same dispatch). -/
def autoConvert (h : Heap) (opts : Options) (hist : List String) (ty : String) (value : JSVal) :
    Heap × JSVal × List String × String :=
  if opts.typeLock then (h, value, hist, ty)
  else
    match ty, value with
    | "string", .vStr s => convertString h opts hist ty s
    | "boolean", .vBool b => (h, convertBoolean opts b, hist, ty)
    | _, _ => (h, value, hist, ty)

/-- The constructor (lines 52–68): infer the type, convert (which may
itself record type changes and update the current type), then record the
*current* inferred type — which, after a conversion, is already the
post-conversion tag. -/
def mkFlexType (h : Heap) (value : JSVal) (name : JStr) (opts : Options) : Heap × FlexType :=
  let ty0 := inferType h value
  let (h1, conv, hist1, ty1) := autoConvert h opts [] ty0 value
  let (hist2, ty2) := recordTypeChange hist1 ty1
  (h1, { initialValue := value, name := name, options := opts,
         typeHistory := hist2, inferredType := ty2, convertedValue := conv })

/-- The `flex` factory (lines 421–426); the "name must be a string" check
is enforced by the type of `name`. -/
def flex (h : Heap) (name : JStr) (value : JSVal) (opts : Options) : Heap × FlexType :=
  mkFlexType h value name opts

/-- `declareFlex` (lines 434–440). -/
def declareFlex (h : Heap) (vars : List (JStr × JSVal)) (opts : Options) :
    Heap × List (JStr × FlexType) :=
  match vars with
  | [] => (h, [])
  | (n, v) :: rest =>
    let (h1, x) := flex h n v opts
    let (h2, xs) := declareFlex h1 rest opts
    (h2, (n, x) :: xs)

namespace FlexType

/-- `strLock` (lines 170–175): rebuild from the initial value. -/
def strLock (h : Heap) (x : FlexType) : Heap × FlexType :=
  mkFlexType h x.initialValue x.name { x.options with stringLock := true }

/-- `boolLock` (lines 181–186). -/
def boolLock (h : Heap) (x : FlexType) : Heap × FlexType :=
  mkFlexType h x.initialValue x.name { x.options with boolLock := true }

/-- `typeLock` (lines 192–197). -/
def typeLock (h : Heap) (x : FlexType) : Heap × FlexType :=
  mkFlexType h x.initialValue x.name { x.options with typeLock := true }

/-- `unlock` (lines 203–209). -/
def unlock (h : Heap) (x : FlexType) : Heap × FlexType :=
  mkFlexType h x.initialValue x.name {}

/-- Getter `value` (line 217). -/
def value (x : FlexType) : JSVal := x.convertedValue

/-- Getter `isLocked` (lines 241–243). -/
def isLocked (x : FlexType) : Bool :=
  x.options.stringLock || x.options.boolLock || x.options.typeLock

/-! Type checkers (lines 247–253). -/

def isString (x : FlexType) : Bool := x.inferredType == "string"
def isNumber (x : FlexType) : Bool := x.inferredType == "number"
def isBoolean (x : FlexType) : Bool := x.inferredType == "boolean"
def isArray (x : FlexType) : Bool := x.inferredType == "array"
def isObject (x : FlexType) : Bool := x.inferredType == "object"
def isNull (x : FlexType) : Bool := x.inferredType == "null"
def isUndefined (x : FlexType) : Bool := x.inferredType == "undefined"

end FlexType

/-- `_unwrap`'s domain (lines 32–34): an operand is a raw value or another
instance. -/
inductive Operand where
  | lit (v : JSVal)
  | wrapped (x : FlexType)

/-- `_unwrap` (lines 32–34). -/
def unwrapOp : Operand → JSVal
  | .lit v => v
  | .wrapped x => x.value

/-- `_getName` (lines 41–43). -/
def operandName : Operand → JStr
  | .lit _ => jstr "literal"
  | .wrapped x => x.name

/-- `ToPrimitive` (default hint) of the model's values: heap references
become their string form, primitives are themselves. -/
def jsToPrimitive (h : Heap) : JSVal → JSVal
  | .vRef a => .vStr (refToJStr (h.length + 1) h a)
  | v => v

def isStrVal : JSVal → Bool
  | .vStr _ => true
  | _ => false

/-- Host `+`: string concatenation when either primitive form is a
string, else numeric addition. -/
def jsAdd (h : Heap) (a b : JSVal) : JSVal :=
  let pa := jsToPrimitive h a
  let pb := jsToPrimitive h b
  if isStrVal pa || isStrVal pb then .vStr (jsToString h pa ++ jsToString h pb)
  else .vNum ((jsToNumber h pa).add (jsToNumber h pb))

/-- The `switch (operator)` of `_mathOperation` (lines 277–293); `none`
models the `default: throw` arm. -/
def applyOperator (h : Heap) (op : JStr) (a b : JSVal) : Option JSVal :=
  if op = jstr "+" then some (jsAdd h a b)
  else if op = jstr "-" then some (.vNum ((jsToNumber h a).sub (jsToNumber h b)))
  else if op = jstr "*" then some (.vNum ((jsToNumber h a).mul (jsToNumber h b)))
  else if op = jstr "/" then some (.vNum ((jsToNumber h a).div (jsToNumber h b)))
  else none

namespace FlexType

/-- `_mathOperation` (lines 263–301). -/
def mathOperation (h : Heap) (x : FlexType) (op : JStr) (other : Operand) :
    Except JStr (Heap × FlexType) :=
  let otherValue := unwrapOp other
  if x.options.stringLock ∧ x.isString then
    .error (jstr "String locked variable '" ++ x.name ++
      jstr "' cannot be used in mathematical operations")
  else
    let val1 : JSVal :=
      if x.options.boolLock ∧ x.isBoolean then
        .vNum (.fin (if jsTruthy x.value then 1 else 0))
      else x.convertedValue
    match applyOperator h op val1 otherValue with
    | none => .error (jstr "Unsupported operator: " ++ op)
    | some result0 =>
      let result : JSVal :=
        if x.options.boolLock ∧ x.isBoolean then
          .vNum (JNum.max2 (.fin 0) (JNum.min2 (.fin 1) (jsToNumber h result0)))
        else result0
      .ok (mkFlexType h result
        (jstr "(" ++ x.name ++ jstr " " ++ op ++ jstr " " ++ operandName other ++ jstr ")") {})

def add (h : Heap) (x : FlexType) (other : Operand) : Except JStr (Heap × FlexType) :=
  x.mathOperation h (jstr "+") other

def subtract (h : Heap) (x : FlexType) (other : Operand) : Except JStr (Heap × FlexType) :=
  x.mathOperation h (jstr "-") other

def multiply (h : Heap) (x : FlexType) (other : Operand) : Except JStr (Heap × FlexType) :=
  x.mathOperation h (jstr "*") other

def divide (h : Heap) (x : FlexType) (other : Operand) : Except JStr (Heap × FlexType) :=
  x.mathOperation h (jstr "/") other

end FlexType

/-- `String()` of an integer offset, for `charShift`'s synthesized name. -/
def intToJStr (k : ℤ) : JStr :=
  (if k < 0 then [45] else []) ++ natDigitsJ k.natAbs

/-- The loop of `charShift` (lines 324–328): `String.fromCharCode`
truncates `charCode + offset` to a UTF-16 code unit (`ToUint16`, i.e.
mod 2^16). -/
def shiftUnits (s : JStr) (offset : ℤ) : JStr :=
  s.map (fun (c : Nat) => (((c : ℤ) + offset) % 65536).toNat)

namespace FlexType

/-- `charShift` (lines 315–331).  When `isString()` holds the converted
value is a string, so the fallback arm is unreachable on constructed
instances. -/
def charShift (h : Heap) (x : FlexType) (offset : ℤ) : Except JStr (Heap × FlexType) :=
  if ¬ x.isString then
    .error (jstr "charShift can only be used on string types. Current type: " ++
      jstr x.inferredType)
  else if x.options.stringLock then
    .error (jstr "String locked variable '" ++ x.name ++ jstr "' cannot use charShift")
  else
    let s : JStr := match x.convertedValue with | .vStr s => s | _ => []
    .ok (mkFlexType h (.vStr (shiftUnits s offset))
      (jstr "charShift(" ++ x.name ++ jstr ", " ++ intToJStr offset ++ jstr ")") {})

end FlexType

/-- Canonical array index form of a property name. -/
def arrIndex? (prop : JStr) : Option Nat :=
  if prop ≠ [] ∧ prop.all isDigitU ∧ (prop.head? = some 48 → prop = [48]) then
    some (decValue prop)
  else none

/-- Host property read `container[property]`: key lookup on objects, index
lookup on arrays, `undefined` when absent. -/
def jsIndex (h : Heap) (v : JSVal) (prop : JStr) : JSVal :=
  match v with
  | .vRef a =>
    (match h[a]? with
     | some (.hObj fs) =>
       (match fs.find? (fun f => f.1 == prop) with
        | some f => f.2
        | none => .vUndefined)
     | some (.hArr vs) =>
       (match arrIndex? prop with
        | some i => (vs[i]?).getD .vUndefined
        | none => .vUndefined)
     | none => .vUndefined)
  | _ => .vUndefined

/-- Replace the value at a key, or append the key (host object write). -/
def setField (fs : List (JStr × JSVal)) (prop : JStr) (v : JSVal) : List (JStr × JSVal) :=
  match fs with
  | [] => [(prop, v)]
  | f :: rest => if f.1 = prop then (prop, v) :: rest else f :: setField rest prop v

/-- Host array write: in-bounds replace, else extend (absent slots filled
with `undefined`). -/
def listSetPad (vs : List JSVal) (i : Nat) (v : JSVal) : List JSVal :=
  if i < vs.length then vs.set i v
  else vs ++ List.replicate (i - vs.length) .vUndefined ++ [v]

namespace FlexType

/-- `get` (lines 340–347): a *new* instance wrapping the property value
(which for containers is the shared reference). -/
def get (h : Heap) (x : FlexType) (prop : JStr) : Except JStr (Heap × FlexType) :=
  if ¬ (x.isArray ∨ x.isObject) then
    .error (jstr "get() can only be used on array or object types. Current type: " ++
      jstr x.inferredType)
  else
    .ok (mkFlexType h (jsIndex h x.convertedValue prop) (x.name ++ [46] ++ prop) {})

/-- `set` (lines 355–363): mutate the shared container in place, return
the same instance. -/
def set (h : Heap) (x : FlexType) (prop : JStr) (v : Operand) :
    Except JStr (Heap × FlexType) :=
  if ¬ (x.isArray ∨ x.isObject) then
    .error (jstr "set() can only be used on array or object types. Current type: " ++
      jstr x.inferredType)
  else
    let newValue := unwrapOp v
    match x.convertedValue with
    | .vRef a =>
      (match h[a]? with
       | some (.hObj fs) => .ok (h.set a (.hObj (setField fs prop newValue)), x)
       | some (.hArr vs) =>
         (match arrIndex? prop with
          | some i => .ok (h.set a (.hArr (listSetPad vs i newValue)), x)
          | none => .ok (h, x))
       | none => .ok (h, x))
    | _ => .ok (h, x)

/-- `push` (lines 370–378): unwrap every item, append in order to the
shared array, return the same instance. -/
def push (h : Heap) (x : FlexType) (items : List Operand) :
    Except JStr (Heap × FlexType) :=
  if ¬ x.isArray then
    .error (jstr "push() can only be used on array types. Current type: " ++
      jstr x.inferredType)
  else
    match x.convertedValue with
    | .vRef a =>
      (match h[a]? with
       | some (.hArr vs) => .ok (h.set a (.hArr (vs ++ items.map unwrapOp)), x)
       | _ => .error (jstr "push: value is not an array"))
    | _ => .error (jstr "push: value is not an array")

/-- `toString` (lines 382–384). -/
def toString (h : Heap) (x : FlexType) : Heap × FlexType :=
  mkFlexType h (.vStr (jsToString h x.convertedValue)) (jstr "String(" ++ x.name ++ jstr ")") {}

/-- `toNumber` (lines 386–388). -/
def toNumber (h : Heap) (x : FlexType) : Heap × FlexType :=
  mkFlexType h (.vNum (jsToNumber h x.convertedValue)) (jstr "Number(" ++ x.name ++ jstr ")") {}

/-- `toBoolean` (lines 390–392). -/
def toBoolean (h : Heap) (x : FlexType) : Heap × FlexType :=
  mkFlexType h (.vBool (jsTruthy x.convertedValue)) (jstr "Boolean(" ++ x.name ++ jstr ")") {}

end FlexType

/-! ## Definitions used by the claim statements -/

/-- The string-coercion result as the specification words it: trim; empty
after trimming stays a string; case-insensitive exact match to
"true"/"false" gives the boolean; else a full parse as a finite number
gives that number; else a brace/bracket-delimited JSON parse is attempted,
giving the parsed array/object on success and the original (untrimmed)
string on failure; any other string is unchanged.  Written from the
claim's words, independently of `_convertString`'s control flow, for
comparison against it. -/
def claimStringCoercion (h : Heap) (s : JStr) : Heap × JSVal :=
  let t := jsTrim s
  if t = [] then (h, .vStr s)
  else if jsToLower t = jstr "true" then (h, .vBool true)
  else if jsToLower t = jstr "false" then (h, .vBool false)
  else if (jsStringToNum t).isFinite then (h, .vNum (jsStringToNum t))
  else if (t.head? = some 123 ∧ t.getLast? = some 125) ∨
          (t.head? = some 91 ∧ t.getLast? = some 93) then
    match jsonParse t with
    | some tree => allocTree h tree
    | none => (h, .vStr s)
  else (h, .vStr s)

/-- `'hello'` with every code unit shifted by `m` modulo 2^16 — the shape
of every string `charShift` can produce from `'hello'`. -/
def helloShifted (m : Nat) : JStr :=
  [(104 + m) % 65536, (101 + m) % 65536, (108 + m) % 65536,
   (108 + m) % 65536, (111 + m) % 65536]

/-- Code units from which some coercion branch of `_convertString` could
still fire when they head the trimmed string: `t`/`T`/`f`/`F`
(booleans), `+ - . I` and digits (numbers), `{` and `[` (JSON). -/
def headSafe (c : Nat) : Prop :=
  ¬(c = 116 ∨ c = 84 ∨ c = 102 ∨ c = 70 ∨ c = 43 ∨ c = 45 ∨ c = 46 ∨
    c = 73 ∨ (48 ≤ c ∧ c ≤ 57) ∨ c = 123 ∨ c = 91)

instance (c : Nat) : Decidable (headSafe c) := by
  unfold headSafe; infer_instance

/-! # Theorems

First, bridge lemmas for the kernel-computable rational helpers, then
general lemmas about the host-string model, then the claim theorems. -/

theorem qAdd_eq (a b : ℚ) : qAdd a b = a + b := by
  have hza : (a.den : ℤ) ≠ 0 := Int.natCast_ne_zero.mpr a.den_nz
  have hzb : (b.den : ℤ) ≠ 0 := Int.natCast_ne_zero.mpr b.den_nz
  rw [qAdd, Rat.mkRat_eq_divInt, Nat.cast_mul]
  conv_rhs => rw [← Rat.num_divInt_den a, ← Rat.num_divInt_den b]
  rw [Rat.divInt_add_divInt _ _ hza hzb]

theorem qNeg_eq (a : ℚ) : qNeg a = -a := by
  rw [qNeg, Rat.mkRat_eq_divInt, ← Rat.neg_divInt, Rat.num_divInt_den]

theorem qMul_eq (a b : ℚ) : qMul a b = a * b := by
  rw [qMul, Rat.mkRat_eq_divInt, Nat.cast_mul]
  conv_rhs => rw [← Rat.num_divInt_den a, ← Rat.num_divInt_den b]
  rw [Rat.divInt_mul_divInt']

theorem qDiv_eq (a b : ℚ) : qDiv a b = a / b := by
  rw [qDiv]
  conv_rhs => rw [← Rat.num_divInt_den a, ← Rat.num_divInt_den b]
  rw [Rat.divInt_div_divInt, Int.mul_comm (a.den : ℤ) b.num]

theorem qMin_eq (a b : ℚ) : qMin a b = min a b := by
  rw [qMin, min_def]

theorem qMax_eq (a b : ℚ) : qMax a b = max a b := by
  rw [qMax, max_def]

theorem stays_of_isStays {o : StrOutcome} (h : o.isStays = true) : o = .stays := by
  cases o <;> first | rfl | simp [StrOutcome.isStays] at h

/-! ### Trim lemmas -/

theorem dropWhile_head_false (p : Nat → Bool) (s : JStr) :
    ∀ {c : Nat} {r : JStr}, s.dropWhile p = c :: r → p c = false := by
  induction s with
  | nil => intro c r h; simp at h
  | cons a t ih =>
    intro c r h
    rw [List.dropWhile_cons] at h
    split at h
    · exact ih h
    · next hpa =>
      injection h with h1 _
      subst h1
      exact Bool.eq_false_iff.mpr hpa

theorem dropTrailingWS_cons_of_not (c : Nat) (rest : JStr) (hc : jsIsWS c = false) :
    dropTrailingWS (c :: rest) = c :: dropTrailingWS rest := by
  rw [dropTrailingWS]
  simp [hc]

theorem dropTrailingWS_idem (l : JStr) :
    dropTrailingWS (dropTrailingWS l) = dropTrailingWS l := by
  induction l with
  | nil => rfl
  | cons c rest ih =>
    rw [dropTrailingWS]
    split
    · rfl
    · next hcond =>
      rw [dropTrailingWS]
      simp only [ih]
      split
      · next hcond2 => exact absurd hcond2 hcond
      · rfl

theorem dropTrailingWS_sublist (l : JStr) : (dropTrailingWS l).Sublist l := by
  induction l with
  | nil => simp [dropTrailingWS]
  | cons c rest ih =>
    rw [dropTrailingWS]
    split
    · exact List.nil_sublist _
    · exact List.Sublist.cons₂ c ih

theorem jsTrim_idem (s : JStr) : jsTrim (jsTrim s) = jsTrim s := by
  rcases hu : s.dropWhile jsIsWS with _ | ⟨a, t⟩
  · have h0 : jsTrim s = [] := by rw [jsTrim, hu]; rfl
    rw [h0]
    rfl
  · have ha : jsIsWS a = false := dropWhile_head_false jsIsWS s hu
    have h1 : jsTrim s = a :: dropTrailingWS t := by
      rw [jsTrim, hu, dropTrailingWS_cons_of_not a t ha]
    rw [h1, jsTrim, List.dropWhile_cons, if_neg (by simp [ha]),
      dropTrailingWS_cons_of_not a _ ha, dropTrailingWS_idem, ← h1]

theorem jsTrim_head_mem (s : JStr) {c : Nat} {r : JStr} (h : jsTrim s = c :: r) : c ∈ s := by
  have h1 : (c :: r).Sublist (s.dropWhile jsIsWS) := h ▸ dropTrailingWS_sublist _
  have h2 : c ∈ s.dropWhile jsIsWS := h1.subset (List.mem_cons_self c r)
  exact (List.dropWhile_sublist jsIsWS (l := s)).subset h2

theorem jsTrim_eq_self (s : JStr) (hall : ∀ c ∈ s, jsIsWS c = false) : jsTrim s = s := by
  rw [jsTrim]
  have hdw : s.dropWhile jsIsWS = s := by
    cases s with
    | nil => rfl
    | cons a t => rw [List.dropWhile_cons, if_neg (by simp [hall a (by simp)])]
  rw [hdw]
  clear hdw
  induction s with
  | nil => rfl
  | cons a t ih =>
    rw [dropTrailingWS_cons_of_not a t (hall a (by simp))]
    rw [ih (fun c hc => hall c (List.mem_cons_of_mem a hc))]

/-! ### Heads of coercible strings -/

theorem head_of_lower_true {t : JStr} (h : jsToLower t = jstr "true") :
    ∃ c r, t = c :: r ∧ (c = 116 ∨ c = 84) := by
  have hj : jstr "true" = [116, 114, 117, 101] := by decide
  rw [hj] at h
  cases t with
  | nil => simp [jsToLower] at h
  | cons a r =>
    refine ⟨a, r, rfl, ?_⟩
    simp only [jsToLower, List.map_cons, List.cons.injEq] at h
    have := h.1
    rw [lowerUnit] at this
    split at this <;> omega

theorem head_of_lower_false {t : JStr} (h : jsToLower t = jstr "false") :
    ∃ c r, t = c :: r ∧ (c = 102 ∨ c = 70) := by
  have hj : jstr "false" = [102, 97, 108, 115, 101] := by decide
  rw [hj] at h
  cases t with
  | nil => simp [jsToLower] at h
  | cons a r =>
    refine ⟨a, r, rfl, ?_⟩
    simp only [jsToLower, List.map_cons, List.cons.injEq] at h
    have := h.1
    rw [lowerUnit] at this
    split at this <;> omega

theorem parseDecBody_nan_of_head {c : Nat} (rest : JStr)
    (hd : ¬(isDigitU c = true ∨ c = 46)) : parseDecBody (c :: rest) = .nan := by
  rw [parseDecBody.eq_def]
  simp only [List.head?_cons]
  rw [if_pos hd]

theorem numFromTrimmed_nan_of_head {c : Nat} (rest : JStr) (hc : headSafe c) :
    numFromTrimmed (c :: rest) = .nan := by
  have hdig : ¬(isDigitU c = true ∨ c = 46) := by
    simp only [isDigitU, decide_eq_true_eq]
    unfold headSafe at hc
    omega
  have hInf : ∀ r : JStr, c :: r ≠ jstr "Infinity" := by
    intro r heq
    have hj : jstr "Infinity" = [73, 110, 102, 105, 110, 105, 116, 121] := by decide
    rw [hj] at heq
    injection heq with h1 _
    unfold headSafe at hc
    omega
  have hUns : ∀ r : JStr, parseUnsignedNum (c :: r) = .nan := by
    intro r
    rw [parseUnsignedNum, if_neg (hInf r)]
    exact parseDecBody_nan_of_head r hdig
  unfold headSafe at hc
  rw [numFromTrimmed.eq_def]
  split
  all_goals try (rename_i heq; injection heq with h1 h2; omega)
  exact hUns rest

theorem jsStringToNum_nan_of_head {s : JStr} {c : Nat} {r : JStr}
    (ht : jsTrim s = c :: r) (hc : headSafe c) : jsStringToNum (c :: r) = .nan := by
  have htr : jsTrim (c :: r) = c :: r := by rw [← ht, jsTrim_idem, ht]
  rw [jsStringToNum, htr, if_neg (by simp)]
  exact numFromTrimmed_nan_of_head r hc

/-- If the head of the trimmed string is outside every coercible head set,
`_convertString` leaves the string alone. -/
theorem stringOutcome_stays_of_head (opts : Options) (s : JStr)
    (hh : ∀ c r, jsTrim s = c :: r → headSafe c) :
    stringOutcome opts s = .stays := by
  rw [stringOutcome]
  split
  · rfl
  · rcases ht : jsTrim s with _ | ⟨c, r⟩
    · rw [if_pos rfl]
    · have hc := hh c r ht
      rw [if_neg (by simp [ht])]
      rw [if_neg, if_neg, if_neg, if_neg]
      · -- JSON-delimiter test fails: the head is neither `{` nor `[`
        simp only [List.head?_cons]
        unfold headSafe at hc
        rintro (⟨h1, -⟩ | ⟨h1, -⟩) <;> (injection h1 with h1; omega)
      · -- the trimmed text does not parse as a number at all
        rw [jsStringToNum_nan_of_head ht hc]
        simp [JNum.isNaN]
      · -- not a case-insensitive "false"
        intro hlow
        obtain ⟨c2, r2, he, hc2⟩ := head_of_lower_false hlow
        injection he with he1 _
        unfold headSafe at hc
        omega
      · -- not a case-insensitive "true"
        intro hlow
        obtain ⟨c2, r2, he, hc2⟩ := head_of_lower_true hlow
        injection he with he1 _
        unfold headSafe at hc
        omega

/-- When `_convertString` decides to leave the string alone it changes
nothing: no heap growth, no history entry, no type change. -/
theorem convertString_stays (h : Heap) (opts : Options) (hist : List String) (ty : String)
    (s : JStr) (hst : stringOutcome opts s = .stays) :
    convertString h opts hist ty s = (h, .vStr s, hist, ty) := by
  rw [convertString, hst]

/-- Constructing from a string the coercion leaves alone: the instance
wraps the very same string, tagged and recorded as a string. -/
theorem mkFlexType_string_stays (h : Heap) (s : JStr) (name : JStr) (opts : Options)
    (htl : opts.typeLock = false) (hst : stringOutcome opts s = .stays) :
    mkFlexType h (.vStr s) name opts =
      (h, { initialValue := .vStr s, name := name, options := opts,
            typeHistory := ["string"], inferredType := "string",
            convertedValue := .vStr s }) := by
  rw [mkFlexType]
  have hty : inferType h (.vStr s) = "string" := rfl
  have hac : autoConvert h opts [] (inferType h (.vStr s)) (.vStr s)
      = (h, .vStr s, [], "string") := by
    rw [hty, autoConvert.eq_def, if_neg (by simp [htl])]
    exact convertString_stays h opts [] "string" s hst
  rw [hac]
  rfl

/-! ### C6: charShift round-trip -/

theorem shiftUnit_mod (c : Nat) (k : ℤ) :
    (((c : ℤ) + k) % 65536).toNat = (c + (k % 65536).toNat) % 65536 := by
  omega

theorem shiftUnits_hello (k : ℤ) :
    shiftUnits (jstr "hello") k = helloShifted (k % 65536).toNat := by
  have hj : jstr "hello" = [104, 101, 108, 108, 111] := by decide
  rw [hj, shiftUnits, helloShifted]
  simp only [List.map_cons, List.map_nil, shiftUnit_mod]

theorem helloShifted_stays (m : Nat) (hm : m < 65536) (hne : m ≠ 65481) :
    stringOutcome {} (helloShifted m) = .stays := by
  by_cases hmain : 23 ≤ m ∧ m < 65468
  · apply stringOutcome_stays_of_head
    intro c r ht
    have hmem : c ∈ helloShifted m := jsTrim_head_mem _ ht
    have hc4 : c = (104 + m) % 65536 ∨ c = (101 + m) % 65536 ∨ c = (108 + m) % 65536 ∨
        c = (111 + m) % 65536 := by
      simpa [helloShifted] using hmem
    unfold headSafe
    omega
  · have hcase : m < 23 ∨ (65468 ≤ m ∧ m < 65536) := by omega
    apply stays_of_isStays
    rcases hcase with hlt | ⟨hge, hlt⟩
    · interval_cases m <;> decide
    · interval_cases m <;> first
        | decide
        | (exact absurd rfl hne)

theorem shiftUnits_roundtrip (s : JStr) (k : ℤ) (hs : ∀ c ∈ s, c < 65536) :
    shiftUnits (shiftUnits s k) (-k) = s := by
  induction s with
  | nil => rfl
  | cons a t ih =>
    have ha : a < 65536 := hs a (List.mem_cons_self a t)
    have htail := ih (fun c hc => hs c (List.mem_cons_of_mem a hc))
    simp only [shiftUnits, List.map_cons, List.cons.injEq] at htail ⊢
    exact ⟨by omega, htail⟩

/-- **C6** (amended): for every integer offset `k` whose residue mod 2^16
is not 65481 (i.e. `k` is not congruent to −55), `charShift(k)` followed by
`charShift(-k)` on an unlocked instance wrapping `'hello'` yields exactly
`'hello'`: the intermediate shifted string re-infers as a string, and the
per-unit code shifts compose to the identity modulo 2^16. -/
theorem c6_charShift_roundtrip_amended (k : ℤ) (h : Heap) (name : JStr) (hk : k % 65536 ≠ 65481) :
    ∃ y z : FlexType,
      FlexType.charShift h (flex h name (.vStr (jstr "hello")) {}).2 k = .ok (h, y) ∧
      y.inferredType = "string" ∧ y.convertedValue = .vStr (shiftUnits (jstr "hello") k) ∧
      FlexType.charShift h y (-k) = .ok (h, z) ∧
      z.convertedValue = .vStr (jstr "hello") ∧ z.inferredType = "string" := by
  have hhello : stringOutcome {} (jstr "hello") = .stays := stays_of_isStays (by decide)
  have hshift : stringOutcome {} (shiftUnits (jstr "hello") k) = .stays := by
    rw [shiftUnits_hello]
    exact helloShifted_stays (k % 65536).toNat (by omega) (by omega)
  have hrt : shiftUnits (shiftUnits (jstr "hello") k) (-k) = jstr "hello" :=
    shiftUnits_roundtrip (jstr "hello") k (by decide)
  have hx0 : flex h name (.vStr (jstr "hello")) {} =
      (h, { initialValue := .vStr (jstr "hello"), name := name, options := {},
            typeHistory := ["string"], inferredType := "string",
            convertedValue := .vStr (jstr "hello") }) := by
    rw [flex]
    exact mkFlexType_string_stays h (jstr "hello") name {} rfl hhello
  rw [hx0]
  refine ⟨{ initialValue := .vStr (shiftUnits (jstr "hello") k),
            name := jstr "charShift(" ++ name ++ jstr ", " ++ intToJStr k ++ jstr ")",
            options := {}, typeHistory := ["string"], inferredType := "string",
            convertedValue := .vStr (shiftUnits (jstr "hello") k) },
          { initialValue := .vStr (jstr "hello"),
            name := jstr "charShift(" ++ (jstr "charShift(" ++ name ++ jstr ", " ++
              intToJStr k ++ jstr ")") ++ jstr ", " ++ intToJStr (-k) ++ jstr ")",
            options := {}, typeHistory := ["string"], inferredType := "string",
            convertedValue := .vStr (jstr "hello") }, ?_, rfl, rfl, ?_, rfl, rfl⟩
  · have hstep1 : FlexType.charShift h
        { initialValue := .vStr (jstr "hello"), name := name, options := {},
          typeHistory := ["string"], inferredType := "string",
          convertedValue := .vStr (jstr "hello") } k =
        .ok (mkFlexType h (.vStr (shiftUnits (jstr "hello") k))
          (jstr "charShift(" ++ name ++ jstr ", " ++ intToJStr k ++ jstr ")") {}) := rfl
    rw [hstep1,
      mkFlexType_string_stays h (shiftUnits (jstr "hello") k)
        (jstr "charShift(" ++ name ++ jstr ", " ++ intToJStr k ++ jstr ")") {} rfl hshift]
  · have hstep2 : FlexType.charShift h
        { initialValue := .vStr (shiftUnits (jstr "hello") k),
          name := jstr "charShift(" ++ name ++ jstr ", " ++ intToJStr k ++ jstr ")",
          options := {}, typeHistory := ["string"], inferredType := "string",
          convertedValue := .vStr (shiftUnits (jstr "hello") k) } (-k) =
        .ok (mkFlexType h (.vStr (shiftUnits (shiftUnits (jstr "hello") k) (-k)))
          (jstr "charShift(" ++ (jstr "charShift(" ++ name ++ jstr ", " ++ intToJStr k ++
            jstr ")") ++ jstr ", " ++ intToJStr (-k) ++ jstr ")") {}) := rfl
    rw [hstep2, hrt,
      mkFlexType_string_stays h (jstr "hello") _ {} rfl hhello]

/-- **C6** (counterexample): at offset `k = -55` the claim fails:
`'hello'` shifts to `'1.558'`, which construction-time coercion turns into
the *number* 1.558, so the instance is no longer string-typed and the
second `charShift` raises the type-mismatch error instead of restoring
`'hello'`. -/
theorem c6_roundtrip_fails_at_neg55 :
    ∃ y : FlexType,
      FlexType.charShift [] (flex [] (jstr "x") (.vStr (jstr "hello")) {}).2 (-55) =
        .ok ([], y) ∧
      y.inferredType = "number" ∧
      y.convertedValue = .vNum (.fin (mkRat 1558 1000)) ∧
      FlexType.charShift [] y 55 =
        .error (jstr "charShift can only be used on string types. Current type: number") := by
  refine ⟨_, rfl, ?_, ?_, ?_⟩ <;> decide

/-- Witness for `c6_charShift_roundtrip_amended` at `k = 1`. -/
theorem c6_charShift_roundtrip_amended_witness :
    ((1 : ℤ) % 65536 ≠ 65481) ∧
    (∃ y z : FlexType,
      FlexType.charShift [] (flex [] (jstr "w") (.vStr (jstr "hello")) {}).2 1 = .ok ([], y) ∧
      y.inferredType = "string" ∧ y.convertedValue = .vStr (shiftUnits (jstr "hello") 1) ∧
      FlexType.charShift [] y (-1) = .ok ([], z) ∧
      z.convertedValue = .vStr (jstr "hello") ∧ z.inferredType = "string") :=
  ⟨by decide, c6_charShift_roundtrip_amended 1 [] (jstr "w") (by decide)⟩

/-! ### C1: type history at construction -/

/-- **C1** (code bug): the claim says `typeHistory` starts with the tag of
the raw input and gains a second entry when coercion changes the type, so
for `'42'` it should be `["string", "number"]`.  The code instead yields
`["number"]` (length 1, raw tag lost): the constructor records the history
only *after* `_autoConvert` has already overwritten `_inferredType` with
the post-coercion tag, so the raw tag is never pushed. -/
theorem c1_history_drops_raw_tag :
    (mkFlexType [] (.vStr (jstr "42")) (jstr "x") {}).2.typeHistory = ["number"] ∧
    (mkFlexType [] (.vStr (jstr "42")) (jstr "x") {}).2.typeHistory ≠ ["string", "number"] ∧
    (mkFlexType [] (.vStr (jstr "42")) (jstr "x") {}).2.typeHistory.length = 1 := by
  refine ⟨?_, ?_, ?_⟩ <;> decide

/-! ### C3: typeLock suppresses coercion -/

/-- **C3**: with `typeLock` true at construction, no coercion is
attempted: the converted value is identically the raw input, the heap is
untouched, and the history is exactly the one tag inferred from the raw
value. -/
theorem c3_typeLock_no_coercion (h : Heap) (v : JSVal) (name : JStr) (opts : Options)
    (hl : opts.typeLock = true) :
    mkFlexType h v name opts =
      (h, { initialValue := v, name := name, options := opts,
            typeHistory := [inferType h v], inferredType := inferType h v,
            convertedValue := v }) := by
  rw [mkFlexType, autoConvert.eq_def, if_pos (by simp [hl])]
  simp [recordTypeChange]

/-- Witness for `c3_typeLock_no_coercion`: even the coercible string
`'42'` stays a string under `typeLock`. -/
theorem c3_typeLock_no_coercion_witness :
    ({ typeLock := true } : Options).typeLock = true ∧
    mkFlexType [] (.vStr (jstr "42")) (jstr "x") { typeLock := true } =
      ([], { initialValue := .vStr (jstr "42"), name := jstr "x",
             options := { typeLock := true },
             typeHistory := ["string"], inferredType := "string",
             convertedValue := .vStr (jstr "42") }) :=
  ⟨rfl, by
    rw [c3_typeLock_no_coercion [] (.vStr (jstr "42")) (jstr "x") { typeLock := true } rfl]
    rfl⟩

/-! ### C7: boolLock on raw booleans -/

/-- **C7**: a raw boolean constructed with `boolLock` true stores the
number 1 (for `true`) or 0 (for `false`) as `convertedValue`, yet no type
change is recorded: the tag stays `"boolean"`, `isBoolean()` is true, and
`typeHistory` is exactly `["boolean"]`. -/
theorem c7_boolLock_numeric_value_boolean_tag (h : Heap) (b : Bool) (name : JStr) :
    mkFlexType h (.vBool b) name { boolLock := true } =
      (h, { initialValue := .vBool b, name := name, options := { boolLock := true },
            typeHistory := ["boolean"], inferredType := "boolean",
            convertedValue := .vNum (.fin (if b then 1 else 0)) }) ∧
    (mkFlexType h (.vBool b) name { boolLock := true }).2.isBoolean = true := by
  cases b <;> exact ⟨rfl, rfl⟩

/-! ### C4: string-locked strings never enter math -/

/-- **C4**: on an instance whose `stringLock` is true and whose current
inferred type is `"string"`, each of `add`/`subtract`/`multiply`/`divide`
raises the lock-violation error, whose message contains the instance's
name.  The operation returns only this error — no new instance and no heap
change — and the model is pure, so the receiver is untouched. -/
theorem c4_stringLock_math_error (h : Heap) (x : FlexType) (other : Operand)
    (hl : x.options.stringLock = true) (ht : x.inferredType = "string") :
    (x.add h other = .error (jstr "String locked variable '" ++ x.name ++
        jstr "' cannot be used in mathematical operations") ∧
     x.subtract h other = .error (jstr "String locked variable '" ++ x.name ++
        jstr "' cannot be used in mathematical operations") ∧
     x.multiply h other = .error (jstr "String locked variable '" ++ x.name ++
        jstr "' cannot be used in mathematical operations") ∧
     x.divide h other = .error (jstr "String locked variable '" ++ x.name ++
        jstr "' cannot be used in mathematical operations")) ∧
    List.IsInfix x.name (jstr "String locked variable '" ++ x.name ++
      jstr "' cannot be used in mathematical operations") := by
  have hmath : ∀ op : JStr, x.mathOperation h op other =
      .error (jstr "String locked variable '" ++ x.name ++
        jstr "' cannot be used in mathematical operations") := by
    intro op
    rw [FlexType.mathOperation]
    rw [if_pos]
    refine ⟨hl, ?_⟩
    rw [FlexType.isString, ht]
    rfl
  exact ⟨⟨hmath _, hmath _, hmath _, hmath _⟩,
    ⟨jstr "String locked variable '", jstr "' cannot be used in mathematical operations",
      by simp⟩⟩

/-- Witness for `c4_stringLock_math_error` on the string-locked string
`'abc'` named `s`. -/
theorem c4_stringLock_math_error_witness :
    (mkFlexType [] (.vStr (jstr "abc")) (jstr "s") { stringLock := true }).2.options.stringLock
        = true ∧
    (mkFlexType [] (.vStr (jstr "abc")) (jstr "s") { stringLock := true }).2.inferredType
        = "string" ∧
    (((mkFlexType [] (.vStr (jstr "abc")) (jstr "s") { stringLock := true }).2.add []
        (.lit (.vNum (.fin 1))) = .error (jstr "String locked variable '" ++
          (mkFlexType [] (.vStr (jstr "abc")) (jstr "s") { stringLock := true }).2.name ++
          jstr "' cannot be used in mathematical operations") ∧
      (mkFlexType [] (.vStr (jstr "abc")) (jstr "s") { stringLock := true }).2.subtract []
        (.lit (.vNum (.fin 1))) = .error (jstr "String locked variable '" ++
          (mkFlexType [] (.vStr (jstr "abc")) (jstr "s") { stringLock := true }).2.name ++
          jstr "' cannot be used in mathematical operations") ∧
      (mkFlexType [] (.vStr (jstr "abc")) (jstr "s") { stringLock := true }).2.multiply []
        (.lit (.vNum (.fin 1))) = .error (jstr "String locked variable '" ++
          (mkFlexType [] (.vStr (jstr "abc")) (jstr "s") { stringLock := true }).2.name ++
          jstr "' cannot be used in mathematical operations") ∧
      (mkFlexType [] (.vStr (jstr "abc")) (jstr "s") { stringLock := true }).2.divide []
        (.lit (.vNum (.fin 1))) = .error (jstr "String locked variable '" ++
          (mkFlexType [] (.vStr (jstr "abc")) (jstr "s") { stringLock := true }).2.name ++
          jstr "' cannot be used in mathematical operations")) ∧
     List.IsInfix (mkFlexType [] (.vStr (jstr "abc")) (jstr "s") { stringLock := true }).2.name
       (jstr "String locked variable '" ++
         (mkFlexType [] (.vStr (jstr "abc")) (jstr "s") { stringLock := true }).2.name ++
         jstr "' cannot be used in mathematical operations")) :=
  ⟨by decide, by decide,
    c4_stringLock_math_error []
      (mkFlexType [] (.vStr (jstr "abc")) (jstr "s") { stringLock := true }).2
      (.lit (.vNum (.fin 1))) (by decide) (by decide)⟩

/-! ### C9 and C5: boolLock math semantics -/

/-- Constructing from a number only tags it (`"number"`, or `"nan"` for
NaN); the value is never changed. -/
theorem mkFlexType_num (h : Heap) (n : JNum) (name : JStr) (opts : Options) :
    mkFlexType h (.vNum n) name opts =
      (h, { initialValue := .vNum n, name := name, options := opts,
            typeHistory := [if n.isNaN then "nan" else "number"],
            inferredType := if n.isNaN then "nan" else "number",
            convertedValue := .vNum n }) := by
  rcases opts with ⟨s, b, t⟩
  cases t <;> cases n <;> rfl

/-- **C9**: the 1/0 operand coercion and the [0,1] clamp apply only when
the current type is `"boolean"`: on a boolLock'd instance wrapping a
number, math uses the converted value as-is and wraps the raw operator
result unclamped; concretely `flex('x', 5, boolLock).subtract(10)` gives
−5. -/
theorem c9_no_clamp_on_numbers (h : Heap) (x : FlexType) (other : Operand) (op : JStr)
    (v : JSVal) (_hb : x.options.boolLock = true) (ht : x.inferredType = "number")
    (hv : applyOperator h op x.convertedValue (unwrapOp other) = some v) :
    x.mathOperation h op other =
      .ok (mkFlexType h v (jstr "(" ++ x.name ++ jstr " " ++ op ++ jstr " " ++
        operandName other ++ jstr ")") {}) ∧
    (∃ r : FlexType,
      (mkFlexType [] (.vNum (.fin 5)) (jstr "x") { boolLock := true }).2.subtract []
        (.lit (.vNum (.fin 10))) = .ok ([], r) ∧
      r.convertedValue = .vNum (.fin (-5))) := by
  have hsb : x.isString = false := by rw [FlexType.isString, ht]; rfl
  have hbb : x.isBoolean = false := by rw [FlexType.isBoolean, ht]; rfl
  constructor
  · rw [FlexType.mathOperation]
    rw [if_neg (by simp [hsb])]
    simp only [hbb, Bool.false_eq_true, and_false, if_false, hv]
  · exact ⟨_, rfl, by decide⟩

/-- The `boolLock` clamp `max(0, min(1, ·))` lands in `[0, 1]` whenever
the operand is not NaN (and is NaN-propagating otherwise). -/
theorem clamp01_range (n : JNum) :
    JNum.max2 (.fin 0) (JNum.min2 (.fin 1) n) = .nan ∨
    ∃ q : ℚ, JNum.max2 (.fin 0) (JNum.min2 (.fin 1) n) = .fin q ∧ 0 ≤ q ∧ q ≤ 1 := by
  cases n with
  | fin q =>
    right
    refine ⟨qMax 0 (qMin 1 q), rfl, ?_, ?_⟩
    · rw [qMax_eq]
      exact le_max_left 0 _
    · rw [qMax_eq, qMin_eq]
      exact max_le (by norm_num) (min_le_left 1 q)
  | posInf =>
    right
    refine ⟨qMax 0 1, rfl, ?_, ?_⟩ <;> (rw [qMax_eq]; norm_num)
  | negInf => exact Or.inr ⟨0, rfl, le_refl 0, by norm_num⟩
  | nan => exact Or.inl rfl

/-- **C5**: with `boolLock` true and current type `"boolean"`, math
coerces the left operand to 1/0 (by truthiness of the converted value),
applies the operator, and clamps the numeric result into [0,1] before
wrapping — so the wrapped value is NaN or lies in [0,1]; concretely
`createTyped('x', true).boolLock().subtract(1).value = 0` and converting
that result to boolean yields `false`. -/
theorem c5_boolLock_clamp (h : Heap) (x : FlexType) (other : Operand) (op : JStr) (v : JSVal)
    (hb : x.options.boolLock = true) (ht : x.inferredType = "boolean")
    (hv : applyOperator h op (.vNum (.fin (if jsTruthy x.convertedValue then 1 else 0)))
      (unwrapOp other) = some v) :
    (x.mathOperation h op other =
      .ok (mkFlexType h (.vNum (JNum.max2 (.fin 0) (JNum.min2 (.fin 1) (jsToNumber h v))))
        (jstr "(" ++ x.name ++ jstr " " ++ op ++ jstr " " ++ operandName other ++ jstr ")")
        {}) ∧
     (JNum.max2 (.fin 0) (JNum.min2 (.fin 1) (jsToNumber h v)) = .nan ∨
      ∃ q : ℚ, JNum.max2 (.fin 0) (JNum.min2 (.fin 1) (jsToNumber h v)) = .fin q ∧
        0 ≤ q ∧ q ≤ 1)) ∧
    (∃ r : FlexType,
      (FlexType.boolLock [] (flex [] (jstr "x") (.vBool true) {}).2).2.subtract []
        (.lit (.vNum (.fin 1))) = .ok ([], r) ∧
      r.convertedValue = .vNum (.fin 0) ∧
      (r.toBoolean []).2.convertedValue = .vBool false) := by
  have hsb : x.isString = false := by rw [FlexType.isString, ht]; rfl
  have hbb : x.isBoolean = true := by rw [FlexType.isBoolean, ht]; rfl
  refine ⟨⟨?_, clamp01_range _⟩, ⟨_, rfl, by decide, by decide⟩⟩
  rw [FlexType.mathOperation]
  rw [if_neg (by simp [hsb])]
  simp only [hbb, hb, and_self, if_true, FlexType.value, hv]

/-- Witness for `c9_no_clamp_on_numbers`: boolLock'd 5, subtract 10. -/
theorem c9_no_clamp_on_numbers_witness :
    ((mkFlexType [] (.vNum (.fin 5)) (jstr "x") { boolLock := true }).2.options.boolLock
        = true) ∧
    ((mkFlexType [] (.vNum (.fin 5)) (jstr "x") { boolLock := true }).2.inferredType
        = "number") ∧
    (applyOperator [] (jstr "-")
      (mkFlexType [] (.vNum (.fin 5)) (jstr "x") { boolLock := true }).2.convertedValue
      (unwrapOp (.lit (.vNum (.fin 10)))) = some (.vNum (.fin (-5)))) ∧
    (∃ r : FlexType,
      (mkFlexType [] (.vNum (.fin 5)) (jstr "x") { boolLock := true }).2.subtract []
        (.lit (.vNum (.fin 10))) = .ok ([], r) ∧
      r.convertedValue = .vNum (.fin (-5))) :=
  ⟨by decide, by decide, by decide,
    (c9_no_clamp_on_numbers [] (mkFlexType [] (.vNum (.fin 5)) (jstr "x") { boolLock := true }).2
      (.lit (.vNum (.fin 10))) (jstr "-") (.vNum (.fin (-5)))
      (by decide) (by decide) (by decide)).2⟩

/-- Witness for `c5_boolLock_clamp`: the claim's own example,
`createTyped('x', true).boolLock().subtract(1)`. -/
theorem c5_boolLock_clamp_witness :
    ((FlexType.boolLock [] (flex [] (jstr "x") (.vBool true) {}).2).2.options.boolLock
        = true) ∧
    ((FlexType.boolLock [] (flex [] (jstr "x") (.vBool true) {}).2).2.inferredType
        = "boolean") ∧
    (applyOperator [] (jstr "-")
      (.vNum (.fin (if jsTruthy
        (FlexType.boolLock [] (flex [] (jstr "x") (.vBool true) {}).2).2.convertedValue
        then 1 else 0)))
      (unwrapOp (.lit (.vNum (.fin 1)))) = some (.vNum (.fin 0))) ∧
    (∃ r : FlexType,
      (FlexType.boolLock [] (flex [] (jstr "x") (.vBool true) {}).2).2.subtract []
        (.lit (.vNum (.fin 1))) = .ok ([], r) ∧
      r.convertedValue = .vNum (.fin 0) ∧
      (r.toBoolean []).2.convertedValue = .vBool false) :=
  ⟨by decide, by decide, by decide,
    (c5_boolLock_clamp [] (FlexType.boolLock [] (flex [] (jstr "x") (.vBool true) {}).2).2
      (.lit (.vNum (.fin 1))) (jstr "-") (.vNum (.fin 0))
      (by decide) (by decide) (by decide)).2⟩

/-! ### C8: get/push aliasing -/

/-- **C8**: `get` on an array/object-typed instance returns a new instance
that *shares* the underlying container: for
`createTyped('c', '{"items":[1]}')`, calling `get('items')` and then
`push(2)` on the result mutates the shared array, so a subsequent
`get('items')` on the *original* instance resolves (through the same heap
reference) to `[1, 2]`; the original's own tag and history are unchanged
by the push. -/
theorem c8_get_push_aliasing :
    ∃ (h1 h2 : Heap) (c g g2 : FlexType),
      flex [] (jstr "c") (.vStr (jstr "\x7b\"items\":[1]\x7d")) {} = (h1, c) ∧
      FlexType.get h1 c (jstr "items") = .ok (h1, g) ∧
      g.convertedValue = .vRef 0 ∧ g.inferredType = "array" ∧
      FlexType.push h1 g [.lit (.vNum (.fin 2))] = .ok (h2, g) ∧
      h2[0]? = some (.hArr [.vNum (.fin 1), .vNum (.fin 2)]) ∧
      FlexType.get h2 c (jstr "items") = .ok (h2, g2) ∧
      g2.convertedValue = .vRef 0 ∧
      c.inferredType = "object" ∧ c.typeHistory = ["object"] := by
  refine ⟨_, _, _, _, _, rfl, rfl, ?_, ?_, rfl, ?_, rfl, ?_, ?_, ?_⟩ <;> decide

/-! ### C2: string-coercion precedence -/

/-- `_convertString` computes exactly the claim-side coercion result
(same trim, same precedence, same silent JSON fallback), whatever the
incoming history and type state. -/
theorem convertString_matches_claim (h : Heap) (opts : Options) (hist : List String)
    (ty : String) (s : JStr) (hs : opts.stringLock = false) :
    ((convertString h opts hist ty s).1, (convertString h opts hist ty s).2.1) =
      claimStringCoercion h s := by
  rw [convertString, stringOutcome, claimStringCoercion]
  rw [if_neg (by simp [hs])]
  by_cases h1 : jsTrim s = []
  · rw [if_pos h1, if_pos h1]
  · rw [if_neg h1, if_neg h1]
    by_cases h2 : jsToLower (jsTrim s) = jstr "true"
    · rw [if_pos h2, if_pos h2]
    · rw [if_neg h2, if_neg h2]
      by_cases h3 : jsToLower (jsTrim s) = jstr "false"
      · rw [if_pos h3, if_pos h3]
      · rw [if_neg h3, if_neg h3]
        rcases hn : jsStringToNum (jsTrim s) with q | _ | _ | _
        · rw [if_pos (by simp [JNum.isNaN, JNum.isFinite] :
              ¬(JNum.fin q).isNaN = true ∧ (JNum.fin q).isFinite = true),
            if_pos (by simp [JNum.isFinite] : (JNum.fin q).isFinite = true)]
        · rw [if_neg (by simp [JNum.isNaN, JNum.isFinite] :
                ¬(¬(JNum.posInf).isNaN = true ∧ (JNum.posInf).isFinite = true)),
            if_neg (by simp [JNum.isFinite] : ¬(JNum.posInf).isFinite = true)]
          by_cases h4 : ((jsTrim s).head? = some 123 ∧ (jsTrim s).getLast? = some 125) ∨
              ((jsTrim s).head? = some 91 ∧ (jsTrim s).getLast? = some 93)
          · rw [if_pos h4, if_pos h4]
            rcases hj : jsonParse (jsTrim s) with _ | t
            · rfl
            · rcases ha : allocTree h t with ⟨h1, v⟩
              simp only [ha]
          · rw [if_neg h4, if_neg h4]
        · rw [if_neg (by simp [JNum.isNaN, JNum.isFinite] :
                ¬(¬(JNum.negInf).isNaN = true ∧ (JNum.negInf).isFinite = true)),
            if_neg (by simp [JNum.isFinite] : ¬(JNum.negInf).isFinite = true)]
          by_cases h4 : ((jsTrim s).head? = some 123 ∧ (jsTrim s).getLast? = some 125) ∨
              ((jsTrim s).head? = some 91 ∧ (jsTrim s).getLast? = some 93)
          · rw [if_pos h4, if_pos h4]
            rcases hj : jsonParse (jsTrim s) with _ | t
            · rfl
            · rcases ha : allocTree h t with ⟨h1, v⟩
              simp only [ha]
          · rw [if_neg h4, if_neg h4]
        · rw [if_neg (by simp [JNum.isNaN, JNum.isFinite] :
                ¬(¬(JNum.nan).isNaN = true ∧ (JNum.nan).isFinite = true)),
            if_neg (by simp [JNum.isFinite] : ¬(JNum.nan).isFinite = true)]
          by_cases h4 : ((jsTrim s).head? = some 123 ∧ (jsTrim s).getLast? = some 125) ∨
              ((jsTrim s).head? = some 91 ∧ (jsTrim s).getLast? = some 93)
          · rw [if_pos h4, if_pos h4]
            rcases hj : jsonParse (jsTrim s) with _ | t
            · rfl
            · rcases ha : allocTree h t with ⟨h1, v⟩
              simp only [ha]
          · rw [if_neg h4, if_neg h4]

/-- **C2**: for every string input with `stringLock` and `typeLock` false,
construction coerces with the claimed precedence — trim; empty-after-trim
stays a string; case-insensitive `true`/`false` to the boolean; full parse
as a finite number to that number; brace/bracket-delimited JSON parse to
the parsed array/object, silently falling back to the original untrimmed
string on parse failure (the model is total, so no error surfaces); any
other string unchanged — matching `claimStringCoercion`, which is written
from the claim's words. -/
theorem c2_string_coercion_precedence (h : Heap) (s name : JStr) (opts : Options)
    (hs : opts.stringLock = false) (htl : opts.typeLock = false) :
    ((mkFlexType h (.vStr s) name opts).1,
      (mkFlexType h (.vStr s) name opts).2.convertedValue) = claimStringCoercion h s := by
  have hconv := convertString_matches_claim h opts [] "string" s hs
  have hac : autoConvert h opts [] (inferType h (.vStr s)) (.vStr s)
      = convertString h opts [] "string" s := by
    rcases opts with ⟨a, b, t⟩
    cases t
    · rfl
    · simp at htl
  rw [mkFlexType, hac]
  rcases hcs : convertString h opts [] "string" s with ⟨h1, conv, hist1, ty1⟩
  rw [hcs] at hconv
  simpa using hconv

/-- Witness for `c2_string_coercion_precedence`: the string `'42'` under
default options coerces to the number 42. -/
theorem c2_string_coercion_precedence_witness :
    (({} : Options).stringLock = false) ∧ (({} : Options).typeLock = false) ∧
    ((mkFlexType [] (.vStr (jstr "42")) (jstr "x") {}).1,
      (mkFlexType [] (.vStr (jstr "42")) (jstr "x") {}).2.convertedValue)
        = claimStringCoercion [] (jstr "42") ∧
    claimStringCoercion [] (jstr "42") = ([], .vNum (.fin 42)) :=
  ⟨rfl, rfl, c2_string_coercion_precedence [] (jstr "42") (jstr "x") {} rfl rfl, by decide⟩

/-! ### C10: toString on finite numbers re-coerces to a number -/

theorem natDigitsRev_lt (fuel : Nat) : ∀ n : Nat, ∀ d ∈ natDigitsRev fuel n, d < 10 := by
  induction fuel with
  | zero => intro n d hd; simp [natDigitsRev] at hd
  | succ fuel ih =>
    intro n d hd
    rw [natDigitsRev] at hd
    split at hd
    · simp at hd
    · rcases List.mem_cons.mp hd with rfl | hd2
      · omega
      · exact ih _ d hd2

theorem natDigitsJ_chars (n : Nat) : ∀ c ∈ natDigitsJ n, 48 ≤ c ∧ c ≤ 57 := by
  intro c hc
  rw [natDigitsJ] at hc
  split at hc
  · simp at hc
    omega
  · simp only [List.mem_map, List.mem_reverse] at hc
    obtain ⟨d, hd, rfl⟩ := hc
    have := natDigitsRev_lt (n + 1) n d hd
    omega

theorem natDigitsJ_ne_nil (n : Nat) : natDigitsJ n ≠ [] := by
  rw [natDigitsJ]
  split
  · simp
  · next hn =>
    rw [natDigitsRev]
    rw [if_neg hn]
    simp

theorem fracDigitsJ_chars (fuel : Nat) : ∀ rem den : Nat, rem < den →
    ∀ c ∈ fracDigitsJ fuel rem den, 48 ≤ c ∧ c ≤ 57 := by
  induction fuel with
  | zero => intro rem den _ c hc; simp [fracDigitsJ] at hc
  | succ fuel ih =>
    intro rem den hrd c hc
    rw [fracDigitsJ] at hc
    split at hc
    · simp at hc
    · rcases List.mem_cons.mp hc with rfl | hc2
      · have hlt : rem * 10 / den < 10 := by
          rw [Nat.div_lt_iff_lt_mul (by omega : 0 < den)]
          omega
        generalize hgen : rem * 10 / den = t at hlt ⊢
        omega
      · exact ih _ _ (Nat.mod_lt _ (by omega)) c hc2

/-- Every code unit of the number printer is a minus sign, a dot, or a
decimal digit. -/
theorem ratToJStr_chars (q : ℚ) :
    ∀ c ∈ ratToJStr q, c = 45 ∨ c = 46 ∨ (48 ≤ c ∧ c ≤ 57) := by
  intro c hc
  rw [ratToJStr] at hc
  simp only [List.append_assoc, List.mem_append] at hc
  rcases hc with hc | hc | hc
  · split at hc
    · simp at hc
      left
      exact hc
    · simp at hc
  · right; right
    exact natDigitsJ_chars _ c hc
  · split at hc
    · simp at hc
    · rcases List.mem_cons.mp hc with rfl | hc2
      · right; left; rfl
      · right; right
        exact fracDigitsJ_chars 1200 _ _
          (Nat.mod_lt _ (Nat.pos_of_ne_zero q.den_nz)) c hc2

theorem ratToJStr_ne_nil (q : ℚ) : ratToJStr q ≠ [] := by
  rw [ratToJStr]
  intro hcon
  rw [List.append_assoc] at hcon
  rcases List.append_eq_nil.mp hcon with ⟨-, h2⟩
  rcases List.append_eq_nil.mp h2 with ⟨h3, -⟩
  exact natDigitsJ_ne_nil _ h3

theorem ratToJStr_trim (q : ℚ) : jsTrim (ratToJStr q) = ratToJStr q := by
  apply jsTrim_eq_self
  intro c hc
  rcases ratToJStr_chars q c hc with h | h | h <;>
    (rw [jsIsWS]; simp only [decide_eq_false_iff_not]; omega)

/-- On the printed form of a finite number, `_convertString` takes the
number branch, giving back `Number(String(q))`. -/
theorem stringOutcome_printed (q : ℚ) (hq : jsStringToNum (ratToJStr q) = .fin q) :
    stringOutcome {} (ratToJStr q) = .toNum (.fin q) := by
  rw [stringOutcome, if_neg (by simp), ratToJStr_trim]
  rw [if_neg (ratToJStr_ne_nil q)]
  rw [if_neg, if_neg, if_pos, hq]
  · rw [hq]
    exact ⟨by simp [JNum.isNaN], by simp [JNum.isFinite]⟩
  · intro hlow
    obtain ⟨c2, r2, he, hc2⟩ := head_of_lower_false hlow
    have hmem : c2 ∈ ratToJStr q := he ▸ List.mem_cons_self c2 r2
    rcases ratToJStr_chars q c2 hmem with h | h | h <;> omega
  · intro hlow
    obtain ⟨c2, r2, he, hc2⟩ := head_of_lower_true hlow
    have hmem : c2 ∈ ratToJStr q := he ▸ List.mem_cons_self c2 r2
    rcases ratToJStr_chars q c2 hmem with h | h | h <;> omega

/-- Constructing from a string on which the coercion decides "number". -/
theorem mkFlexType_string_toNum (h : Heap) (s name : JStr) (opts : Options) (n : JNum)
    (htl : opts.typeLock = false) (hst : stringOutcome opts s = .toNum n) :
    mkFlexType h (.vStr s) name opts =
      (h, { initialValue := .vStr s, name := name, options := opts,
            typeHistory := ["number"], inferredType := "number",
            convertedValue := .vNum n }) := by
  rw [mkFlexType]
  have hty : inferType h (.vStr s) = "string" := rfl
  have hac : autoConvert h opts [] (inferType h (.vStr s)) (.vStr s)
      = (h, .vNum n, ["number"], "number") := by
    rw [hty, autoConvert.eq_def, if_neg (by simp [htl])]
    show convertString h opts [] "string" s = _
    rw [convertString, hst]
    rfl
  rw [hac]
  rfl

/-- **C10**: for an instance wrapping a finite number `q` under default
options, `toString()` stringifies and immediately re-coerces: whenever the
host print/parse round-trip returns `q` (a host guarantee for every finite
JS number, here a hypothesis at the rational model's boundary), the result
wraps the *number* `q` again with tag `"number"` — never a string. -/
theorem c10_toString_reinfers_number (h : Heap) (q : ℚ) (name : JStr)
    (hq : jsStringToNum (ratToJStr q) = .fin q) :
    FlexType.toString h (flex h name (.vNum (.fin q)) {}).2 =
      (h, { initialValue := .vStr (ratToJStr q),
            name := jstr "String(" ++ name ++ jstr ")", options := {},
            typeHistory := ["number"], inferredType := "number",
            convertedValue := .vNum (.fin q) }) := by
  have hx0 : flex h name (.vNum (.fin q)) {} =
      (h, { initialValue := .vNum (.fin q), name := name, options := {},
            typeHistory := ["number"], inferredType := "number",
            convertedValue := .vNum (.fin q) }) := by
    rw [flex, mkFlexType_num]
    rfl
  rw [hx0]
  have hstep : FlexType.toString h
      { initialValue := .vNum (.fin q), name := name, options := {},
        typeHistory := ["number"], inferredType := "number",
        convertedValue := .vNum (.fin q) } =
      mkFlexType h (.vStr (ratToJStr q)) (jstr "String(" ++ name ++ jstr ")") {} := rfl
  rw [hstep, mkFlexType_string_toNum h (ratToJStr q) _ {} (.fin q) rfl
    (stringOutcome_printed q hq)]

/-- Witness for `c10_toString_reinfers_number` at `q = 42`. -/
theorem c10_toString_reinfers_number_witness :
    jsStringToNum (ratToJStr 42) = .fin 42 ∧
    FlexType.toString [] (flex [] (jstr "v") (.vNum (.fin 42)) {}).2 =
      ([], { initialValue := .vStr (ratToJStr 42),
             name := jstr "String(" ++ jstr "v" ++ jstr ")", options := {},
             typeHistory := ["number"], inferredType := "number",
             convertedValue := .vNum (.fin 42) }) :=
  ⟨by decide, c10_toString_reinfers_number [] 42 (jstr "v") (by decide)⟩
